import Mathlib

/-!
Verification development for the Webberizer service (src/main.py).

The service has three parts, all embedded below:
* `WebScraper.extract_article` — fetches a page and heuristically extracts
  an article title and body (modelled by `extract_article` over a
  `FetchOutcome` oracle and an HTML `Node` tree);
* `GroqAnalyzer.analyze_text` — sends the text to a chat-completion API and
  validates the JSON result (modelled by `analyze_text` over a
  `GroqOutcome` oracle and a `Json` value type);
* the `/analyze` route — wires the two and maps results to HTTP statuses
  (modelled by `analyze`).

Network I/O and the remote model are abstracted by oracle types
(`FetchOutcome`, `GroqOutcome`, `ContentPayload`); everything after the
oracles is a direct translation of the Python control flow.
-/

set_option linter.unusedVariables false

/-! ## Python string primitives

Character-level models of the Python operations used by the scraper:
`str.strip`, `re.sub(r"\s+", " ", ·)`, `" ".join`, and the `in`
substring test. -/

/- Whitespace as recognised by Python's `str.strip` / `re` `\s` on the
ASCII range: space, tab, newline, carriage return, vertical tab, form feed. -/
def isSpaceChar (c : Char) : Bool :=
  c = ' ' || c = '\t' || c = '\n' || c = '\r' || c = '\u000b' || c = '\u000c'

/-- `re.sub(r"\s+", " ", s)` on a character list: every maximal run of
whitespace becomes a single space.  The flag records whether we are
currently inside a whitespace run. -/
def collapseL : Bool → List Char → List Char
  | _, [] => []
  | inRun, c :: rest =>
    if isSpaceChar c then
      if inRun then collapseL true rest else ' ' :: collapseL true rest
    else c :: collapseL false rest

/-- Drop trailing whitespace (structural formulation). -/
def dropTrail : List Char → List Char
  | [] => []
  | c :: rest =>
    match dropTrail rest with
    | [] => if isSpaceChar c then [] else [c]
    | r => c :: r

/-- Python `str.strip`: drop leading and trailing whitespace. -/
def stripL (l : List Char) : List Char :=
  dropTrail (l.dropWhile isSpaceChar)

/-- The maximal whitespace-free runs of a character list, in order. -/
def tokens : List Char → List (List Char)
  | [] => []
  | c :: rest =>
    if isSpaceChar c then tokens rest
    else
      match rest with
      | [] => [[c]]
      | d :: _ =>
        if isSpaceChar d then [c] :: tokens rest
        else
          match tokens rest with
          | [] => [[c]]
          | t :: ts => (c :: t) :: ts

/-- Python `" ".join` on character lists. -/
def joinWithSpace : List (List Char) → List Char
  | [] => []
  | [t] => t
  | t :: ts => t ++ ' ' :: joinWithSpace ts

/-- Does the list end with a whitespace character? -/
def endsSpace : List Char → Bool
  | [] => false
  | [c] => isSpaceChar c
  | _ :: c :: rest => endsSpace (c :: rest)

/-- Substring test on character lists (Python `pat in s`). -/
def isSubstrL (pat : List Char) : List Char → Bool
  | [] => pat.isEmpty
  | c :: rest => pat.isPrefixOf (c :: rest) || isSubstrL pat rest

/-- Python `pat in s` for strings. -/
def strContains (s pat : String) : Bool := isSubstrL pat.data s.data

/-- Python `s.startswith(p)`. -/
def pyStartsWith (s p : String) : Bool := p.data.isPrefixOf s.data

/-- Python `s.strip()`. -/
def pyStrip (s : String) : String := String.mk (stripL s.data)

/-- Python `re.sub(r"\s+", " ", s)`. -/
def collapseWs (s : String) : String := String.mk (collapseL false s.data)

/-- Python `" ".join(ts)`. -/
def joinWithSpaceStr (ts : List String) : String :=
  String.mk (joinWithSpace (ts.map String.data))

/-! ## HTML document model

A parsed page (`BeautifulSoup(response.text, "html.parser")`) is a forest
of nodes; an element carries its tag, an optional `class` attribute value
and its children. -/

mutual
inductive Node where
  | text : String → Node
  | element : String → Option String → NodeList → Node
inductive NodeList where
  | nil : NodeList
  | cons : Node → NodeList → NodeList
end

/- `get_text()` of a node: concatenation of all string descendants. -/
mutual
def getTextL : Node → List Char
  | .text s => s.data
  | .element _ _ ch => getTextListL ch
def getTextListL : NodeList → List Char
  | .nil => []
  | .cons n rest => getTextL n ++ getTextListL rest
end

def getText (n : Node) : String := String.mk (getTextL n)

/- `soup.find(tag)`: first element with the given tag, in document
(preorder) order. -/
mutual
def findTag (t : String) : NodeList → Option Node
  | .nil => none
  | .cons n rest =>
    match findTagNode t n with
    | some a => some a
    | none => findTag t rest
def findTagNode (t : String) : Node → Option Node
  | .text _ => none
  | .element tg c ch =>
    if tg = t then some (Node.element tg c ch) else findTag t ch
end

/- The CSS selectors tried by `extract_article`, in source order:
`article`, `div[class*="article"]`, `div[class*="content"]`,
`div[class*="post"]`, `main`. -/
inductive Selector where
  | tagSel : String → Selector
  | divClassContains : String → Selector
deriving DecidableEq

def selector_list : List Selector :=
  [Selector.tagSel "article", Selector.divClassContains "article",
   Selector.divClassContains "content", Selector.divClassContains "post",
   Selector.tagSel "main"]

/-- Does an element with the given tag and class attribute match a
selector?  `div[class*=sub]` matches a `div` whose class attribute value
contains `sub` as a substring. -/
def matchesSelector (s : Selector) (tag : String) (cls : Option String) : Bool :=
  match s with
  | .tagSel t => tag = t
  | .divClassContains sub =>
    tag = "div" &&
      (match cls with
       | some c => strContains c sub
       | none => false)

/- `soup.select_one(selector)`: first matching element in document order. -/
mutual
def select_one (s : Selector) : NodeList → Option Node
  | .nil => none
  | .cons n rest =>
    match select_oneNode s n with
    | some a => some a
    | none => select_one s rest
def select_oneNode (s : Selector) : Node → Option Node
  | .text _ => none
  | .element tg c ch =>
    if matchesSelector s tg c then some (Node.element tg c ch)
    else select_one s ch
end

/- Does any element of the forest match the selector? -/
mutual
def anyMatch (s : Selector) : NodeList → Bool
  | .nil => false
  | .cons n rest => anyMatchNode s n || anyMatch s rest
def anyMatchNode (s : Selector) : Node → Bool
  | .text _ => false
  | .element tg c ch => matchesSelector s tg c || anyMatch s ch
end

/- The `for selector in [...]` loop: try each selector with
`select_one`, stopping at the first that returns an element. -/
def selectLoop (doc : NodeList) : List Selector → Option Node
  | [] => none
  | s :: rest =>
    match select_one s doc with
    | some a => some a
    | none => selectLoop doc rest

/-- The article container chosen by the selector loop. -/
def chosenArticle (doc : NodeList) : Option Node := selectLoop doc selector_list

/-- Tags whose subtrees are removed (`decompose`d) from the matched
container before text extraction. -/
def unwanted_tags : List String :=
  ["script", "style", "nav", "header", "footer", "aside", "iframe", "form",
   "button"]

/- Remove every element whose tag is in `unwanted_tags`, at any depth. -/
mutual
def cleanNode : Node → Node
  | .text s => .text s
  | .element t c ch => .element t c (cleanList ch)
def cleanList : NodeList → NodeList
  | .nil => .nil
  | .cons (Node.text s) rest => .cons (.text s) (cleanList rest)
  | .cons (Node.element t c ch) rest =>
    if t ∈ unwanted_tags then cleanList rest
    else .cons (Node.element t c (cleanList ch)) (cleanList rest)
end

/- `article.find_all(tag)`: all matching descendant elements, preorder. -/
mutual
def find_all (t : String) : NodeList → List Node
  | .nil => []
  | .cons n rest => find_allNode t n ++ find_all t rest
def find_allNode (t : String) : Node → List Node
  | .text _ => []
  | .element tg c ch =>
    (if tg = t then [Node.element tg c ch] else []) ++ find_all t ch
end

def childrenOf : Node → NodeList
  | .text _ => .nil
  | .element _ _ ch => ch

/-- Texts of the paragraph elements of the cleaned article container
(`p.get_text()` for `p` in `article.find_all("p")` after `decompose`). -/
def paragraphTexts (article : Node) : List String :=
  (find_all "p" (cleanList (childrenOf article))).map getText

/-- Outcome of `session.get(url, ...)` followed by `raise_for_status` and
parsing: either some exception (connection error, timeout, non-2xx
status), or a parsed document. -/
inductive FetchOutcome where
  | fetchError : String → FetchOutcome
  | page : NodeList → FetchOutcome

/-- The body of `extract_article`'s `try` block: title from the first
`h1`, container from the selector loop (raising `ValueError` when none
matches), then cleaned paragraph texts stripped, joined with single
spaces, whitespace-collapsed and stripped. -/
def extract_article_body (doc : NodeList) : Except String (String × String) :=
  let title : String :=
    match findTag "h1" doc with
    | some h => pyStrip (getText h)
    | none => ""
  match chosenArticle doc with
  | none => Except.error "Could not find article content"
  | some article =>
    let text :=
      pyStrip (collapseWs (joinWithSpaceStr ((paragraphTexts article).map pyStrip)))
    Except.ok (title, text)

/-- `WebScraper.extract_article`: any exception anywhere in the sequence
(fetch or body) is caught and converted to `("", "")`. -/
def extract_article : FetchOutcome → String × String
  | .fetchError _ => ("", "")
  | .page doc =>
    match extract_article_body doc with
    | .ok r => r
    | .error _ => ("", "")

/-! ## JSON values and the analysis client -/

/- A JSON value as produced by `json.loads` / `response.json()`. -/
inductive Json where
  | null : Json
  | bool : Bool → Json
  | num : Int → Json
  | str : String → Json
  | arr : List Json → Json
  | obj : List (String × Json) → Json

/-- Python truthiness of a JSON value (`if not x`). -/
def truthy : Json → Bool
  | .null => false
  | .bool b => b
  | .num n => n ≠ 0
  | .str s => s ≠ ""
  | .arr l => !l.isEmpty
  | .obj kvs => !kvs.isEmpty

/-- Is this JSON value the given string?  (Python `==` between a string
and an arbitrary JSON value.) -/
def isStrVal (k : String) : Json → Bool
  | .str s => s = k
  | _ => false

/-- Python `k in x` for a JSON value `x`: key membership for a dict,
element membership for a list, substring test for a string, and a
`TypeError` otherwise. -/
def jsonContains (x : Json) (k : String) : Except String Bool :=
  match x with
  | .obj kvs => Except.ok (kvs.any (fun kv => kv.1 = k))
  | .arr l => Except.ok (l.any (isStrVal k))
  | .str s => Except.ok (strContains s k)
  | _ => Except.error "TypeError: argument of non-container type is not iterable"

/-- Python `x[k]` for a string key: dict lookup (`KeyError` when the key
is absent, `TypeError` when `x` is not a dict). -/
def getKey (x : Json) (k : String) : Except String Json :=
  match x with
  | .obj kvs =>
    match kvs.find? (fun kv => kv.1 = k) with
    | some kv => Except.ok kv.2
    | none => Except.error ("KeyError: " ++ k)
  | _ => Except.error "TypeError: indices must be integers"

/-- Python `x[i]` for an integer index: list/string indexing
(`IndexError` when out of range, `KeyError`/`TypeError` otherwise). -/
def getIndex (x : Json) (i : Nat) : Except String Json :=
  match x with
  | .arr l =>
    match l.get? i with
    | some v => Except.ok v
    | none => Except.error "IndexError: list index out of range"
  | .str s =>
    match s.data.get? i with
    | some c => Except.ok (Json.str (String.mk [c]))
    | none => Except.error "IndexError: string index out of range"
  | _ => Except.error "TypeError: object is not subscriptable"

/-- The six keys `analyze_text` requires in the parsed analysis. -/
def expected_keys : List String :=
  ["summary", "key_points", "sentiment", "topics", "writing_style",
   "target_audience"]

/-- The list of keys the prompt asks the model to use
("Format the response as JSON with these exact keys"), rendered as the
final lines of the prompt. -/
def promptKeysSection : String :=
  "- summary\n- key_points (array)\n- topics (array)\n- writing_style"

/-- The f-string prompt built by `analyze_text` from the extracted title
and body. -/
def prompt (title text : String) : String :=
  "Analyze the following article titled \"" ++ title ++ "\":\n\n" ++ text ++
  "\n\nProvide a comprehensive analysis including:\n" ++
  "1. A concise summary (2-3 sentences)\n" ++
  "2. Key points (3-5 points)\n" ++
  "3. Sentiment analysis (positive/negative/neutral with explanation)\n" ++
  "4. Main topics discussed\n" ++
  "5. Writing style analysis\n" ++
  "6. Target audience assessment\n\n" ++
  "Format the response as JSON with these exact keys:\n" ++ promptKeysSection

/-- Outcome of `json.loads(analysis_text)` on the model's content string:
either a `json.JSONDecodeError` with its message, or a parsed JSON value. -/
inductive ContentPayload where
  | invalid : String → ContentPayload
  | parsed : Json → ContentPayload

/-- Outcome of the outbound `requests.post` to the chat-completion API:
a `requests.RequestException` (connection error or non-2xx status via
`raise_for_status`), or a parsed 2xx response body together with the
`json.loads` oracle for the content string it carries. -/
inductive GroqOutcome where
  | requestError : String → GroqOutcome
  | success : Json → ContentPayload → GroqOutcome

/-- `all(key in analysis for key in keys)`, with Python's short-circuit
and possible `TypeError` from `in`. -/
def allKeysIn (analysis : Json) : List String → Except String Bool
  | [] => Except.ok true
  | k :: ks => do
    let b ← jsonContains analysis k
    if b then allKeysIn analysis ks else pure false

/-- Navigation `response_data["choices"][0]["message"]["content"]`,
preceded by the guard
`if "choices" not in response_data or not response_data["choices"]`. -/
def extract_content (responseData : Json) : Except String Json := do
  let hasChoices ← jsonContains responseData "choices"
  if !hasChoices then
    Except.error "Invalid response format from GROQ API"
  else do
    let choices ← getKey responseData "choices"
    if !truthy choices then
      Except.error "Invalid response format from GROQ API"
    else do
      let c0 ← getIndex choices 0
      let msg ← getKey c0 "message"
      getKey msg "content"

/-- The body of `analyze_text`'s outer `try` after a successful POST:
navigate to the content string, run `json.loads` (the inner `try`
re-raises a decode error as
`ValueError("Invalid JSON response from GROQ: ...")`), then validate the
six required keys, re-raising `ValueError("Missing required keys in
analysis response")` when one is absent. -/
def analyze_body (responseData : Json) (payload : ContentPayload) :
    Except String Json := do
  let content ← extract_content responseData
  match content with
  | .str _ =>
    match payload with
    | .invalid e =>
      Except.error ("Invalid JSON response from GROQ: " ++ e)
    | .parsed analysis => do
      let ok ← allKeysIn analysis expected_keys
      if ok then pure analysis
      else Except.error "Missing required keys in analysis response"
  | _ => Except.error "TypeError: the JSON object must be str, bytes or bytearray"

/-- `GroqAnalyzer.analyze_text`: a `requests.RequestException` is mapped
to the connect-failure mapping; every other exception raised in the body
is mapped to the generic failure mapping with the exception's message as
details. -/
def analyze_text (title text : String) : GroqOutcome → Json
  | .requestError m =>
    Json.obj [("error", Json.str "Failed to connect to GROQ API"),
              ("details", Json.str m)]
  | .success responseData payload =>
    match analyze_body responseData payload with
    | .ok a => a
    | .error m =>
      Json.obj [("error", Json.str "Failed to analyze text"),
                ("details", Json.str m)]

/-! ## The `/analyze` endpoint -/

/-- The `/analyze` route: validate the form URL, extract, analyze, and
choose the HTTP status by whether the analysis mapping contains the key
`"error"`.  The outer `try` turns any exception into a 500 with the
exception's message. -/
def analyze (url : Option String) (fetched : FetchOutcome)
    (groq : GroqOutcome) : Nat × Json :=
  let u := url.getD ""
  if u = "" then
    (400, Json.obj [("error", Json.str "No URL provided")])
  else if !(pyStartsWith u "http://" || pyStartsWith u "https://") then
    (400, Json.obj [("error",
      Json.str "Invalid URL format. URL must start with http:// or https://")])
  else
    match extract_article fetched with
    | (title, text) =>
      if text = "" then
        (400, Json.obj [("error", Json.str "Failed to extract article content")])
      else
        let analysis := analyze_text title text groq
        match jsonContains analysis "error" with
        | .error m => (500, Json.obj [("error", Json.str m)])
        | .ok true => (500, analysis)
        | .ok false => (200, analysis)

/-! ## Helper lemmas: analysis client -/

theorem exceptBindOk {α β : Type} (x : α) (f : α → Except String β) :
    (Except.ok x >>= f : Except String β) = f x := rfl

theorem exceptPureEq {α : Type} (x : α) :
    (pure x : Except String α) = Except.ok x := rfl

theorem allKeysIn_obj (kvs : List (String × Json)) (ks : List String) :
    allKeysIn (Json.obj kvs) ks =
      Except.ok (ks.all (fun k => kvs.any (fun kv => kv.1 = k))) := by
  induction ks with
  | nil => rfl
  | cons k ks ih =>
    simp only [allKeysIn, jsonContains, exceptBindOk, List.all_cons]
    cases h : kvs.any (fun kv => kv.1 = k) with
    | true => simp [h, ih]
    | false => simp [h, exceptPureEq]

theorem analyze_body_parsed_obj (rd : Json) (s : String)
    (kvs : List (String × Json))
    (hnav : extract_content rd = Except.ok (Json.str s)) :
    analyze_body rd (ContentPayload.parsed (Json.obj kvs)) =
      if expected_keys.all (fun k => kvs.any (fun kv => kv.1 = k)) then
        Except.ok (Json.obj kvs)
      else Except.error "Missing required keys in analysis response" := by
  simp only [analyze_body, hnav, exceptBindOk, allKeysIn_obj, exceptPureEq]

/-! ## Shared concrete fixtures for witnesses -/

/-- A canonical well-formed chat-completion response body: one choice
whose message content is the string "x". -/
def sampleResponse : Json :=
  Json.obj [("choices", Json.arr [Json.obj [("message",
    Json.obj [("content", Json.str "x")])]])]

/-! ## Claims about the analysis client -/

/-- C1: for every parsed JSON object missing one of the six required
keys, `analyze_text` returns the generic failure mapping
(error: "Failed to analyze text"), even though the prompt's exact-keys
list requests only four of those keys: neither "sentiment" nor
"target_audience" occurs in it. -/
theorem analyze_text_missing_keys_generic_failure (title text : String)
    (rd : Json) (s : String) (kvs : List (String × Json))
    (hnav : extract_content rd = Except.ok (Json.str s))
    (hmiss : ∃ k, k ∈ expected_keys ∧ kvs.any (fun kv => kv.1 = k) = false) :
    analyze_text title text
        (GroqOutcome.success rd (ContentPayload.parsed (Json.obj kvs))) =
      Json.obj [("error", Json.str "Failed to analyze text"),
                ("details", Json.str "Missing required keys in analysis response")] ∧
    strContains promptKeysSection "sentiment" = false ∧
    strContains promptKeysSection "target_audience" = false ∧
    "sentiment" ∈ expected_keys ∧ "target_audience" ∈ expected_keys := by
  refine ⟨?_, by decide, by decide, by decide, by decide⟩
  have hall : expected_keys.all (fun k => kvs.any (fun kv => kv.1 = k)) = false := by
    rcases hmiss with ⟨k, hk, hfalse⟩
    cases hres : expected_keys.all (fun k => kvs.any (fun kv => kv.1 = k)) with
    | true => rw [List.all_eq_true] at hres; rw [hres k hk] at hfalse; cases hfalse
    | false => rfl
  simp only [analyze_text, analyze_body_parsed_obj rd s kvs hnav, hall,
    Bool.false_eq_true, if_false]

theorem analyze_text_missing_keys_generic_failure_witness :
    analyze_text "" ""
        (GroqOutcome.success sampleResponse (ContentPayload.parsed (Json.obj []))) =
      Json.obj [("error", Json.str "Failed to analyze text"),
                ("details", Json.str "Missing required keys in analysis response")] ∧
    strContains promptKeysSection "sentiment" = false ∧
    strContains promptKeysSection "target_audience" = false ∧
    "sentiment" ∈ expected_keys ∧ "target_audience" ∈ expected_keys :=
  analyze_text_missing_keys_generic_failure "" "" sampleResponse "x" []
    (by rfl) ⟨"summary", by decide, by rfl⟩

/-- C2: when the content string fails to parse as JSON, the body of
`analyze_text` raises `ValueError("Invalid JSON response from GROQ: ...")`,
but the outer handler catches it and the caller gets the generic mapping
whose error value is "Failed to analyze text" (the specific value only
survives inside `details`). -/
theorem analyze_text_invalid_json_double_wrapped (title text : String)
    (rd : Json) (s e : String)
    (hnav : extract_content rd = Except.ok (Json.str s)) :
    analyze_body rd (ContentPayload.invalid e) =
      Except.error ("Invalid JSON response from GROQ: " ++ e) ∧
    analyze_text title text (GroqOutcome.success rd (ContentPayload.invalid e)) =
      Json.obj [("error", Json.str "Failed to analyze text"),
                ("details", Json.str ("Invalid JSON response from GROQ: " ++ e))] := by
  have hbody : analyze_body rd (ContentPayload.invalid e) =
      Except.error ("Invalid JSON response from GROQ: " ++ e) := by
    simp only [analyze_body, hnav, exceptBindOk]
  exact ⟨hbody, by simp only [analyze_text, hbody]⟩

theorem analyze_text_invalid_json_double_wrapped_witness :
    analyze_body sampleResponse (ContentPayload.invalid "oops") =
      Except.error ("Invalid JSON response from GROQ: " ++ "oops") ∧
    analyze_text "" "" (GroqOutcome.success sampleResponse (ContentPayload.invalid "oops")) =
      Json.obj [("error", Json.str "Failed to analyze text"),
                ("details", Json.str ("Invalid JSON response from GROQ: " ++ "oops"))] :=
  analyze_text_invalid_json_double_wrapped "" "" sampleResponse "x" "oops" (by rfl)

/-- C6: every transport or HTTP failure of the outbound request
(`requests.RequestException`) yields exactly the connect-failure mapping. -/
theorem analyze_text_request_error (title text m : String) :
    analyze_text title text (GroqOutcome.requestError m) =
      Json.obj [("error", Json.str "Failed to connect to GROQ API"),
                ("details", Json.str m)] := rfl

/-! ## Helper lemmas: scraper and route -/

theorem selectLoop_all_none (doc : NodeList) (sl : List Selector)
    (h : ∀ s ∈ sl, select_one s doc = none) : selectLoop doc sl = none := by
  induction sl with
  | nil => rfl
  | cons s rest ih =>
    simp only [selectLoop, h s (List.mem_cons_self s rest)]
    exact ih (fun s2 hs2 => h s2 (List.mem_cons_of_mem s hs2))

theorem selectLoop_first_some (doc : NodeList) (pre : List Selector)
    (s : Selector) (post : List Selector) (a : Node)
    (hpre : ∀ s2 ∈ pre, select_one s2 doc = none)
    (hs : select_one s doc = some a) :
    selectLoop doc (pre ++ s :: post) = some a := by
  induction pre with
  | nil => simp only [List.nil_append, selectLoop, hs]
  | cons p pre ih =>
    simp only [List.cons_append, selectLoop, hpre p (List.mem_cons_self p pre)]
    exact ih (fun s2 hs2 => hpre s2 (List.mem_cons_of_mem p hs2))

theorem chosenArticle_none_body_empty (doc : NodeList)
    (h : chosenArticle doc = none) :
    extract_article (FetchOutcome.page doc) = ("", "") := by
  simp only [extract_article, extract_article_body, h]

theorem chosenArticle_some_extract (doc : NodeList) (article : Node)
    (h : chosenArticle doc = some article) :
    extract_article (FetchOutcome.page doc) =
      ((match findTag "h1" doc with
        | some hd => pyStrip (getText hd)
        | none => ""),
       pyStrip (collapseWs (joinWithSpaceStr
         ((paragraphTexts article).map pyStrip)))) := by
  simp only [extract_article, extract_article_body, h]

theorem pyStartsWith_ne_empty (u p : String) (hp : p ≠ "")
    (h : pyStartsWith u p = true) : u ≠ "" := by
  intro hu
  subst hu
  unfold pyStartsWith at h
  have hnil : ("" : String).data = [] := rfl
  cases hd : p.data with
  | nil => exact hp (String.ext (hd.trans rfl))
  | cons c cs => rw [hd, hnil] at h; simp [List.isPrefixOf] at h

theorem analyze_valid_url (u : String) (f : FetchOutcome) (groq : GroqOutcome)
    (hu : pyStartsWith u "http://" = true ∨ pyStartsWith u "https://" = true) :
    analyze (some u) f groq =
      (match extract_article f with
       | (title, text) =>
         if text = "" then
           (400, Json.obj [("error", Json.str "Failed to extract article content")])
         else
           let analysis := analyze_text title text groq
           match jsonContains analysis "error" with
           | .error m => (500, Json.obj [("error", Json.str m)])
           | .ok true => (500, analysis)
           | .ok false => (200, analysis)) := by
  have hne : u ≠ "" := by
    cases hu with
    | inl h => exact pyStartsWith_ne_empty u "http://" (by decide) h
    | inr h => exact pyStartsWith_ne_empty u "https://" (by decide) h
  have hsw : (pyStartsWith u "http://" || pyStartsWith u "https://") = true := by
    cases hu with
    | inl h => simp [h]
    | inr h => simp [h]
  simp only [analyze, Option.getD, hne, hsw]
  simp [hne]

/- `select_one` returns an element exactly when some element matches. -/
mutual
theorem select_one_isSome_eq_anyMatch (s : Selector) :
    ∀ l : NodeList, (select_one s l).isSome = anyMatch s l
  | .nil => rfl
  | .cons n rest => by
    simp only [select_one, anyMatch]
    cases h : select_oneNode s n with
    | some a =>
      have hn := select_oneNode_isSome_eq_anyMatchNode s n
      rw [h] at hn
      simp [← hn]
    | none =>
      have hn := select_oneNode_isSome_eq_anyMatchNode s n
      rw [h] at hn
      simp [← hn, select_one_isSome_eq_anyMatch s rest]
theorem select_oneNode_isSome_eq_anyMatchNode (s : Selector) :
    ∀ n : Node, (select_oneNode s n).isSome = anyMatchNode s n
  | .text _ => rfl
  | .element tg c ch => by
    simp only [select_oneNode, anyMatchNode]
    cases h : matchesSelector s tg c with
    | true => simp [h]
    | false => simp [h, select_one_isSome_eq_anyMatch s ch]
end

/-! ## Claims about extraction and the endpoint's failure paths -/

/-- C3: extraction never raises: a fetch/parse exception is converted to
`("", "")`, and any error raised inside the extraction body (such as the
`ValueError` for a missing container) is caught and converted to
`("", "")` as well. -/
theorem extract_article_never_raises :
    (∀ m, extract_article (FetchOutcome.fetchError m) = ("", "")) ∧
    (∀ doc e, extract_article_body doc = Except.error e →
      extract_article (FetchOutcome.page doc) = ("", "")) := by
  refine ⟨fun m => rfl, fun doc e h => ?_⟩
  simp only [extract_article, h]

theorem extract_article_never_raises_witness :
    extract_article (FetchOutcome.fetchError "timeout") = ("", "") ∧
    extract_article (FetchOutcome.page NodeList.nil) = ("", "") :=
  ⟨extract_article_never_raises.1 "timeout",
   extract_article_never_raises.2 NodeList.nil "Could not find article content" rfl⟩

/-- C4: when no structural selector matches any element, extraction
returns an empty body, and the `/analyze` endpoint answers 400 with
the fixed extraction-failure error object. -/
theorem no_selector_match_gives_400 (doc : NodeList) (u : String)
    (groq : GroqOutcome)
    (hnone : ∀ s ∈ selector_list, select_one s doc = none)
    (hu : pyStartsWith u "http://" = true ∨ pyStartsWith u "https://" = true) :
    (extract_article (FetchOutcome.page doc)).2 = "" ∧
    analyze (some u) (FetchOutcome.page doc) groq =
      (400, Json.obj [("error", Json.str "Failed to extract article content")]) := by
  have hch : chosenArticle doc = none := selectLoop_all_none doc selector_list hnone
  have hempty := chosenArticle_none_body_empty doc hch
  refine ⟨by rw [hempty], ?_⟩
  rw [analyze_valid_url u _ groq hu, hempty]
  rfl

/-- A document with no matching container: a lone `h1` and a `span`. -/
def noMatchDoc : NodeList :=
  NodeList.cons (Node.element "h1" none
    (NodeList.cons (Node.text "Title") NodeList.nil))
  (NodeList.cons (Node.element "span" (some "article")
    (NodeList.cons (Node.text "stuff") NodeList.nil)) NodeList.nil)

theorem no_selector_match_gives_400_witness :
    (extract_article (FetchOutcome.page noMatchDoc)).2 = "" ∧
    analyze (some "http://e.com") (FetchOutcome.page noMatchDoc)
        (GroqOutcome.requestError "nope") =
      (400, Json.obj [("error", Json.str "Failed to extract article content")]) :=
  no_selector_match_gives_400 noMatchDoc "http://e.com"
    (GroqOutcome.requestError "nope")
    (by
      intro s hs
      fin_cases hs <;> rfl)
    (Or.inl (by rfl))

/-- C7: the article container is chosen by trying the fixed ordered
selector list — `article`, `div[class*="article"]`, `div[class*="content"]`,
`div[class*="post"]`, `main` — where `select_one` succeeds exactly when
some element matches, the first succeeding selector wins, and if none
succeeds the chosen container is `none` and the extracted body is empty. -/
theorem selector_order_first_match (doc : NodeList) :
    selector_list = [Selector.tagSel "article", Selector.divClassContains "article",
      Selector.divClassContains "content", Selector.divClassContains "post",
      Selector.tagSel "main"] ∧
    (∀ s, (select_one s doc).isSome = anyMatch s doc) ∧
    (∀ pre s post a, selector_list = pre ++ s :: post →
      (∀ s2 ∈ pre, select_one s2 doc = none) →
      select_one s doc = some a →
      chosenArticle doc = some a) ∧
    ((∀ s ∈ selector_list, select_one s doc = none) →
      chosenArticle doc = none ∧ (extract_article (FetchOutcome.page doc)).2 = "") := by
  refine ⟨rfl, fun s => select_one_isSome_eq_anyMatch s doc, ?_, ?_⟩
  · intro pre s post a heq hpre hs
    unfold chosenArticle
    rw [heq]
    exact selectLoop_first_some doc pre s post a hpre hs
  · intro hnone
    have hch : chosenArticle doc = none := selectLoop_all_none doc selector_list hnone
    exact ⟨hch, by rw [chosenArticle_none_body_empty doc hch]⟩

/-- A document whose first selector fails but whose second
(`div[class*="article"]`) matches. -/
def classArticleDoc : NodeList :=
  NodeList.cons (Node.element "div" (some "main-article")
    (NodeList.cons (Node.element "p" none
      (NodeList.cons (Node.text "hi") NodeList.nil)) NodeList.nil)) NodeList.nil

/-- The container selected from `classArticleDoc`. -/
def classArticleNode : Node :=
  Node.element "div" (some "main-article")
    (NodeList.cons (Node.element "p" none
      (NodeList.cons (Node.text "hi") NodeList.nil)) NodeList.nil)

theorem selector_order_first_match_witness :
    chosenArticle classArticleDoc = some classArticleNode :=
  (selector_order_first_match classArticleDoc).2.2.1
    [Selector.tagSel "article"]
    (Selector.divClassContains "article")
    [Selector.divClassContains "content", Selector.divClassContains "post",
     Selector.tagSel "main"]
    classArticleNode rfl
    (by intro s2 hs2; fin_cases hs2; rfl)
    rfl

theorem analyze_extracted (u : String) (f : FetchOutcome) (groq : GroqOutcome)
    (title text : String)
    (hu : pyStartsWith u "http://" = true ∨ pyStartsWith u "https://" = true)
    (hef : extract_article f = (title, text)) :
    analyze (some u) f groq =
      (if text = "" then
        (400, Json.obj [("error", Json.str "Failed to extract article content")])
      else
        match jsonContains (analyze_text title text groq) "error" with
        | .error m => (500, Json.obj [("error", Json.str m)])
        | .ok true => (500, analyze_text title text groq)
        | .ok false => (200, analyze_text title text groq)) := by
  rw [analyze_valid_url u f groq hu, hef]

theorem analyze_success_path (u : String) (f : FetchOutcome) (rd : Json)
    (s : String) (kvs : List (String × Json))
    (hu : pyStartsWith u "http://" = true ∨ pyStartsWith u "https://" = true)
    (hbody : (extract_article f).2 ≠ "")
    (hnav : extract_content rd = Except.ok (Json.str s))
    (hall : expected_keys.all (fun k => kvs.any (fun kv => kv.1 = k)) = true) :
    analyze (some u) f (GroqOutcome.success rd (ContentPayload.parsed (Json.obj kvs))) =
      if kvs.any (fun kv => kv.1 = "error") then (500, Json.obj kvs)
      else (200, Json.obj kvs) := by
  cases hef : extract_article f with
  | mk title text =>
    have htext : text ≠ "" := by rw [hef] at hbody; exact hbody
    have hana : analyze_text title text
        (GroqOutcome.success rd (ContentPayload.parsed (Json.obj kvs))) =
          Json.obj kvs := by
      simp only [analyze_text, analyze_body_parsed_obj rd s kvs hnav, hall, if_true]
    rw [analyze_extracted u f _ title text hu hef, if_neg htext, hana]
    simp only [jsonContains]
    cases kvs.any (fun kv => kv.1 = "error") <;> rfl

/-! ## Fixtures for the endpoint claims -/

/-- A page with a semantic `article` container holding one paragraph. -/
def articleDoc : NodeList :=
  NodeList.cons (Node.element "article" none
    (NodeList.cons (Node.element "p" none
      (NodeList.cons (Node.text "Hello world") NodeList.nil)) NodeList.nil))
    NodeList.nil

/-- An analysis object carrying exactly the six required keys. -/
def fullAnalysis : List (String × Json) :=
  [("summary", Json.str "s"), ("key_points", Json.arr [Json.str "k"]),
   ("sentiment", Json.str "positive"), ("topics", Json.arr [Json.str "t"]),
   ("writing_style", Json.str "w"), ("target_audience", Json.str "a")]

/-- An analysis object carrying the six required keys plus an "error" key. -/
def fullAnalysisWithError : List (String × Json) :=
  [("summary", Json.str "s"), ("key_points", Json.arr [Json.str "k"]),
   ("sentiment", Json.str "positive"), ("topics", Json.arr [Json.str "t"]),
   ("writing_style", Json.str "w"), ("target_audience", Json.str "a"),
   ("error", Json.str "model says error")]

/-- C9: the endpoint tells analysis success from failure solely by whether
the returned mapping contains the key "error": an object with all six
required keys that also carries an "error" key comes back with status 500
rather than 200. -/
theorem endpoint_error_key_gives_500 (u : String) (f : FetchOutcome) (rd : Json)
    (s : String) (kvs : List (String × Json))
    (hu : pyStartsWith u "http://" = true ∨ pyStartsWith u "https://" = true)
    (hbody : (extract_article f).2 ≠ "")
    (hnav : extract_content rd = Except.ok (Json.str s))
    (hall : expected_keys.all (fun k => kvs.any (fun kv => kv.1 = k)) = true)
    (herr : kvs.any (fun kv => kv.1 = "error") = true) :
    analyze (some u) f (GroqOutcome.success rd (ContentPayload.parsed (Json.obj kvs))) =
      (500, Json.obj kvs) := by
  rw [analyze_success_path u f rd s kvs hu hbody hnav hall, if_pos herr]

theorem endpoint_error_key_gives_500_witness :
    analyze (some "http://e.com") (FetchOutcome.page articleDoc)
        (GroqOutcome.success sampleResponse
          (ContentPayload.parsed (Json.obj fullAnalysisWithError))) =
      (500, Json.obj fullAnalysisWithError) :=
  endpoint_error_key_gives_500 "http://e.com" (FetchOutcome.page articleDoc)
    sampleResponse "x" fullAnalysisWithError
    (Or.inl (by rfl)) (by decide) (by rfl) (by rfl) (by rfl)

/-- C5 as stated is false on the code: this model object contains all six
required keys (and the extracted body is non-empty), yet because it also
contains an "error" key the endpoint answers 500, not 200 with the object. -/
theorem full_analysis_with_error_not_200 :
    expected_keys.all (fun k => fullAnalysisWithError.any (fun kv => kv.1 = k)) = true ∧
    (extract_article (FetchOutcome.page articleDoc)).2 ≠ "" ∧
    analyze (some "http://e.com") (FetchOutcome.page articleDoc)
        (GroqOutcome.success sampleResponse
          (ContentPayload.parsed (Json.obj fullAnalysisWithError))) ≠
      (200, Json.obj fullAnalysisWithError) := by
  refine ⟨by decide, by decide, ?_⟩
  intro h
  exact absurd (congrArg Prod.fst h) (by decide)

/-- C5 (amended): for a well-formed request with a non-empty extracted
body, if the model returns a JSON object containing all six required keys
and not containing the key "error", the endpoint answers 200 with a body
equal to that object. -/
theorem well_formed_analysis_gives_200 (u : String) (f : FetchOutcome) (rd : Json)
    (s : String) (kvs : List (String × Json))
    (hu : pyStartsWith u "http://" = true ∨ pyStartsWith u "https://" = true)
    (hbody : (extract_article f).2 ≠ "")
    (hnav : extract_content rd = Except.ok (Json.str s))
    (hall : expected_keys.all (fun k => kvs.any (fun kv => kv.1 = k)) = true)
    (hnoerr : kvs.any (fun kv => kv.1 = "error") = false) :
    analyze (some u) f (GroqOutcome.success rd (ContentPayload.parsed (Json.obj kvs))) =
      (200, Json.obj kvs) := by
  rw [analyze_success_path u f rd s kvs hu hbody hnav hall,
    if_neg (by simp [hnoerr])]

theorem well_formed_analysis_gives_200_witness :
    analyze (some "http://e.com") (FetchOutcome.page articleDoc)
        (GroqOutcome.success sampleResponse
          (ContentPayload.parsed (Json.obj fullAnalysis))) =
      (200, Json.obj fullAnalysis) :=
  well_formed_analysis_gives_200 "http://e.com" (FetchOutcome.page articleDoc)
    sampleResponse "x" fullAnalysis
    (Or.inl (by rfl)) (by decide) (by rfl) (by rfl) (by rfl)

/-! ## Whitespace-normalisation theory

The code assembles the body as
`strip(collapse(join(map strip texts)))`; the spec describes it without
the inner per-paragraph strip.  The two agree because both equal the
space-join of the whitespace-free tokens of the texts; the lemmas below
establish that normal form. -/

def headSpace : List Char → Bool
  | [] => false
  | c :: _ => isSpaceChar c

theorem collapse_false_eq (l : List Char) :
    collapseL false l =
      (if headSpace l then [' '] else []) ++ collapseL true l := by
  cases l with
  | nil => rfl
  | cons c rest =>
    cases h : isSpaceChar c with
    | true => simp [collapseL, headSpace, h]
    | false => simp [collapseL, headSpace, h]

theorem dropWhile_collapse_true (l : List Char) :
    (collapseL true l).dropWhile isSpaceChar = collapseL true l := by
  induction l with
  | nil => rfl
  | cons c rest ih =>
    simp only [collapseL]
    cases h : isSpaceChar c with
    | true => simp [h, ih]
    | false => simp [h, List.dropWhile_cons]

theorem allspace_collapse_true (l : List Char) (h : l.all isSpaceChar = true) :
    collapseL true l = [] := by
  induction l with
  | nil => rfl
  | cons c rest ih =>
    simp only [List.all_cons, Bool.and_eq_true] at h
    simp [collapseL, h.1, ih h.2]

theorem tokens_nil_iff (l : List Char) :
    tokens l = [] ↔ l.all isSpaceChar = true := by
  induction l with
  | nil => simp [tokens]
  | cons c rest ih =>
    cases h : isSpaceChar c with
    | true => simp [tokens, h, ih]
    | false =>
      simp only [tokens, h, Bool.false_eq_true, if_false, List.all_cons,
        Bool.false_and]
      cases rest with
      | nil => simp
      | cons d r =>
        cases hd : isSpaceChar d with
        | true => simp [hd]
        | false =>
          simp only [hd, Bool.false_eq_true, if_false]
          cases tokens (d :: r) <;> simp

theorem allspace_endsSpace (l : List Char) (hne : l ≠ [])
    (h : l.all isSpaceChar = true) : endsSpace l = true := by
  induction l with
  | nil => exact absurd rfl hne
  | cons c rest ih =>
    simp only [List.all_cons, Bool.and_eq_true] at h
    cases rest with
    | nil => simpa [endsSpace] using h.1
    | cons d r => simpa [endsSpace] using ih (by simp) h.2

theorem tokens_cons_space (c : Char) (rest : List Char)
    (h : isSpaceChar c = true) : tokens (c :: rest) = tokens rest := by
  simp [tokens, h]

theorem tokens_singleton_nonspace (c : Char) (h : isSpaceChar c = false) :
    tokens [c] = [[c]] := by
  simp [tokens, h]

theorem tokens_cons_cons_space (c d : Char) (r : List Char)
    (hc : isSpaceChar c = false) (hd : isSpaceChar d = true) :
    tokens (c :: d :: r) = [c] :: tokens (d :: r) := by
  conv_lhs => rw [tokens]
  simp [hc, hd]

theorem tokens_cons_cons_nonspace (c d : Char) (r t : List Char)
    (ts : List (List Char)) (hc : isSpaceChar c = false)
    (hd : isSpaceChar d = false) (htk : tokens (d :: r) = t :: ts) :
    tokens (c :: d :: r) = (c :: t) :: ts := by
  conv_lhs => rw [tokens]
  simp [hc, hd, htk]

theorem joinWithSpace_cons_cons (t t2 : List Char) (ts : List (List Char)) :
    joinWithSpace (t :: t2 :: ts) = t ++ ' ' :: joinWithSpace (t2 :: ts) := rfl

theorem dropTrail_cons (c : Char) (rest : List Char) :
    dropTrail (c :: rest) =
      (match dropTrail rest with
       | [] => if isSpaceChar c then [] else [c]
       | r => c :: r) := by
  conv_lhs => rw [dropTrail]

theorem dropTrail_append_space (x : List Char) :
    dropTrail (x ++ [' ']) = dropTrail x := by
  induction x with
  | nil => rfl
  | cons c x ih =>
    rw [List.cons_append, dropTrail_cons, ih, dropTrail_cons]

theorem endsSpace_false_dropTrail (l : List Char) (h : endsSpace l = false) :
    dropTrail l = l := by
  induction l with
  | nil => rfl
  | cons c rest ih =>
    cases rest with
    | nil =>
      simp only [endsSpace] at h
      simp [dropTrail, h]
    | cons d r =>
      simp only [endsSpace] at h
      rw [dropTrail_cons, ih h]

theorem endsSpace_append (a b : List Char) (hb : b ≠ []) :
    endsSpace (a ++ b) = endsSpace b := by
  induction a with
  | nil => rfl
  | cons c a ih =>
    have hne : a ++ b ≠ [] := by
      intro hh
      exact hb (List.append_eq_nil.mp hh).2
    cases ha2 : a ++ b with
    | nil => exact absurd ha2 hne
    | cons d r =>
      rw [List.cons_append, ha2]
      simp only [endsSpace]
      rw [← ha2]
      exact ih

theorem nonspace_endsSpace_false (t : List Char) (hne : t ≠ [])
    (hns : t.all (fun c => !isSpaceChar c) = true) : endsSpace t = false := by
  induction t with
  | nil => exact absurd rfl hne
  | cons c rest ih =>
    simp only [List.all_cons, Bool.and_eq_true] at hns
    cases rest with
    | nil =>
      simp only [endsSpace]
      simpa using hns.1
    | cons d r =>
      simp only [endsSpace]
      exact ih (by simp) hns.2

theorem joinWithSpace_cons_ne_nil (t : List Char) (ts : List (List Char))
    (ht : t ≠ []) : joinWithSpace (t :: ts) ≠ [] := by
  cases ts with
  | nil => simpa [joinWithSpace] using ht
  | cons t2 ts => simp [joinWithSpace_cons_cons]

theorem endsSpace_joinWithSpace (ts : List (List Char))
    (hwf : ∀ t ∈ ts, t ≠ [] ∧ t.all (fun c => !isSpaceChar c) = true) :
    endsSpace (joinWithSpace ts) = false := by
  induction ts with
  | nil => rfl
  | cons t ts ih =>
    cases ts with
    | nil =>
      have h := hwf t (by simp)
      simpa [joinWithSpace] using nonspace_endsSpace_false t h.1 h.2
    | cons t2 ts2 =>
      have h2 := ih (fun x hx => hwf x (List.mem_cons_of_mem t hx))
      rw [joinWithSpace_cons_cons, endsSpace_append t _ (by simp)]
      have hne : joinWithSpace (t2 :: ts2) ≠ [] :=
        joinWithSpace_cons_ne_nil t2 ts2 (hwf t2 (by simp)).1
      cases hj : joinWithSpace (t2 :: ts2) with
      | nil => exact absurd hj hne
      | cons x xs =>
        simp only [endsSpace]
        rw [← hj]
        exact h2

theorem tokens_wf (l : List Char) :
    ∀ t ∈ tokens l, t ≠ [] ∧ t.all (fun c => !isSpaceChar c) = true := by
  induction l with
  | nil => simp [tokens]
  | cons c rest ih =>
    cases h : isSpaceChar c with
    | true => simpa [tokens_cons_space c rest h] using ih
    | false =>
      cases rest with
      | nil => simp [tokens_singleton_nonspace c h, h]
      | cons d r =>
        cases hd : isSpaceChar d with
        | true =>
          rw [tokens_cons_cons_space c d r h hd]
          intro t hmem
          rcases List.mem_cons.mp hmem with rfl | hmem2
          · exact ⟨by simp, by simp [h]⟩
          · exact ih t hmem2
        | false =>
          cases htk : tokens (d :: r) with
          | nil =>
            rw [tokens_nil_iff] at htk
            simp only [List.all_cons, Bool.and_eq_true] at htk
            rw [htk.1] at hd
            cases hd
          | cons t0 ts0 =>
            rw [tokens_cons_cons_nonspace c d r t0 ts0 h hd htk]
            intro t hmem
            rcases List.mem_cons.mp hmem with rfl | hmem2
            · have h0 := ih t0 (by rw [htk]; exact List.mem_cons_self t0 ts0)
              refine ⟨by simp, ?_⟩
              simp only [List.all_cons, Bool.and_eq_true]
              exact ⟨by simp [h], h0.2⟩
            · exact ih t (by rw [htk]; exact List.mem_cons_of_mem t0 hmem2)

theorem collapseL_true_cons_space (c : Char) (rest : List Char)
    (h : isSpaceChar c = true) :
    collapseL true (c :: rest) = collapseL true rest := by
  simp [collapseL, h]

theorem collapseL_true_cons_nonspace (c : Char) (rest : List Char)
    (h : isSpaceChar c = false) :
    collapseL true (c :: rest) = c :: collapseL false rest := by
  simp [collapseL, h]

theorem joinWithSpace_cons_head (c : Char) (t : List Char)
    (ts : List (List Char)) :
    joinWithSpace ((c :: t) :: ts) = c :: joinWithSpace (t :: ts) := by
  cases ts with
  | nil => rfl
  | cons t2 ts2 => simp [joinWithSpace_cons_cons]

theorem collapse_true_spec (l : List Char) :
    collapseL true l =
      joinWithSpace (tokens l) ++
        (if endsSpace l && !(tokens l).isEmpty then [' '] else []) := by
  induction l with
  | nil => rfl
  | cons c rest ih =>
    cases h : isSpaceChar c with
    | true =>
      rw [collapseL_true_cons_space c rest h, tokens_cons_space c rest h]
      cases rest with
      | nil => simp [tokens, endsSpace, joinWithSpace, collapseL]
      | cons d r =>
        rw [ih]
        simp only [endsSpace]
    | false =>
      rw [collapseL_true_cons_nonspace c rest h, collapse_false_eq rest, ih]
      cases rest with
      | nil =>
        simp [tokens_singleton_nonspace c h, joinWithSpace, endsSpace, h,
          headSpace, tokens]
      | cons d r =>
        cases hd : isSpaceChar d with
        | true =>
          rw [tokens_cons_cons_space c d r h hd]
          cases htk : tokens (d :: r) with
          | nil =>
            have hall : (d :: r).all isSpaceChar = true := (tokens_nil_iff _).mp htk
            have hcoll : collapseL true (d :: r) = [] :=
              allspace_collapse_true _ hall
            have hends : endsSpace (d :: r) = true :=
              allspace_endsSpace _ (by simp) hall
            rw [htk] at ih
            simp [headSpace, hd, joinWithSpace, endsSpace, hends, htk, hcoll, ih]
          | cons t ts =>
            simp [headSpace, hd, joinWithSpace_cons_cons, endsSpace]
        | false =>
          cases htk : tokens (d :: r) with
          | nil =>
            have hall : (d :: r).all isSpaceChar = true := (tokens_nil_iff _).mp htk
            simp only [List.all_cons, Bool.and_eq_true] at hall
            rw [hall.1] at hd
            cases hd
          | cons t ts =>
            rw [tokens_cons_cons_nonspace c d r t ts h hd htk,
              joinWithSpace_cons_head]
            simp only [headSpace, hd, Bool.false_eq_true, if_false,
              List.nil_append, endsSpace, List.isEmpty_cons, Bool.not_false,
              Bool.and_true, List.cons_append]

theorem strip_collapse_eq_joinTokens (l : List Char) :
    stripL (collapseL false l) = joinWithSpace (tokens l) := by
  unfold stripL
  rw [collapse_false_eq l]
  have hdw : ((if headSpace l then [' '] else []) ++
      collapseL true l).dropWhile isSpaceChar = collapseL true l := by
    cases hh : headSpace l with
    | true =>
      simp [List.dropWhile_cons, dropWhile_collapse_true, isSpaceChar]
    | false =>
      simp [dropWhile_collapse_true]
  rw [hdw, collapse_true_spec l]
  have hwf := tokens_wf l
  have hJ : dropTrail (joinWithSpace (tokens l)) = joinWithSpace (tokens l) :=
    endsSpace_false_dropTrail _ (endsSpace_joinWithSpace _ hwf)
  cases hcond : (endsSpace l && !(tokens l).isEmpty) with
  | true =>
    simp only [if_true]
    rw [dropTrail_append_space]
    exact hJ
  | false =>
    simp only [Bool.false_eq_true, if_false, List.append_nil]
    exact hJ

theorem tokens_append_space (a b : List Char) :
    tokens (a ++ ' ' :: b) = tokens a ++ tokens b := by
  induction a with
  | nil =>
    rw [List.nil_append, tokens_cons_space ' ' b (by decide),
      show tokens ([] : List Char) = [] from rfl, List.nil_append]
  | cons c a ih =>
    cases h : isSpaceChar c with
    | true =>
      rw [List.cons_append, tokens_cons_space c _ h, ih,
        tokens_cons_space c a h]
    | false =>
      cases a with
      | nil =>
        rw [List.cons_append, List.nil_append,
          tokens_cons_cons_space c ' ' b h (by decide),
          tokens_cons_space ' ' b (by decide),
          tokens_singleton_nonspace c h]
        simp
      | cons d a2 =>
        cases hd : isSpaceChar d with
        | true =>
          rw [List.cons_append, List.cons_append,
            tokens_cons_cons_space c d _ h hd,
            show d :: (a2 ++ ' ' :: b) = (d :: a2) ++ ' ' :: b from rfl, ih,
            tokens_cons_cons_space c d a2 h hd]
          simp
        | false =>
          cases htk : tokens (d :: a2) with
          | nil =>
            have hall := (tokens_nil_iff _).mp htk
            simp only [List.all_cons, Bool.and_eq_true] at hall
            rw [hall.1] at hd
            cases hd
          | cons t ts =>
            have hmid : tokens (d :: (a2 ++ ' ' :: b)) = t :: (ts ++ tokens b) := by
              rw [show d :: (a2 ++ ' ' :: b) = (d :: a2) ++ ' ' :: b from rfl,
                ih, htk]
              simp
            rw [List.cons_append, List.cons_append,
              tokens_cons_cons_nonspace c d (a2 ++ ' ' :: b) t (ts ++ tokens b)
                h hd hmid,
              tokens_cons_cons_nonspace c d a2 t ts h hd htk]
            simp

theorem tokens_append_allspace (x s : List Char)
    (hs : s.all isSpaceChar = true) : tokens (x ++ s) = tokens x := by
  induction x with
  | nil =>
    simp only [List.nil_append, tokens]
    exact (tokens_nil_iff s).mpr hs
  | cons c x ih =>
    cases h : isSpaceChar c with
    | true =>
      rw [List.cons_append, tokens_cons_space c _ h, ih,
        tokens_cons_space c x h]
    | false =>
      cases x with
      | nil =>
        rw [List.cons_append, List.nil_append, tokens_singleton_nonspace c h]
        cases s with
        | nil => exact tokens_singleton_nonspace c h
        | cons e s2 =>
          have he : isSpaceChar e = true := by
            simp only [List.all_cons, Bool.and_eq_true] at hs
            exact hs.1
          rw [tokens_cons_cons_space c e s2 h he,
            (tokens_nil_iff (e :: s2)).mpr hs]
      | cons d x2 =>
        cases hd : isSpaceChar d with
        | true =>
          rw [List.cons_append, List.cons_append,
            tokens_cons_cons_space c d _ h hd,
            show d :: (x2 ++ s) = (d :: x2) ++ s from rfl, ih,
            tokens_cons_cons_space c d x2 h hd]
        | false =>
          cases htk : tokens (d :: x2) with
          | nil =>
            have hall := (tokens_nil_iff _).mp htk
            simp only [List.all_cons, Bool.and_eq_true] at hall
            rw [hall.1] at hd
            cases hd
          | cons t ts =>
            have hmid : tokens (d :: (x2 ++ s)) = t :: ts := by
              rw [show d :: (x2 ++ s) = (d :: x2) ++ s from rfl, ih, htk]
            rw [List.cons_append, List.cons_append,
              tokens_cons_cons_nonspace c d (x2 ++ s) t ts h hd hmid,
              tokens_cons_cons_nonspace c d x2 t ts h hd htk]

theorem dropTrail_decomp (l : List Char) :
    ∃ s, l = dropTrail l ++ s ∧ s.all isSpaceChar = true := by
  induction l with
  | nil => exact ⟨[], rfl, rfl⟩
  | cons c rest ih =>
    rcases ih with ⟨s, hs, hall⟩
    cases hdt : dropTrail rest with
    | nil =>
      have hrest : rest.all isSpaceChar = true := by
        rw [hdt, List.nil_append] at hs
        rw [hs]
        exact hall
      cases hc : isSpaceChar c with
      | true =>
        refine ⟨c :: rest, ?_, ?_⟩
        · rw [dropTrail_cons, hdt]
          simp [hc]
        · simp [hc, hrest]
      | false =>
        refine ⟨rest, ?_, hrest⟩
        rw [dropTrail_cons, hdt]
        simp [hc]
    | cons d r2 =>
      refine ⟨s, ?_, hall⟩
      rw [dropTrail_cons, hdt]
      rw [hdt] at hs
      show c :: rest = (c :: d :: r2) ++ s
      rw [List.cons_append, ← hs]

theorem tokens_dropWhile_space (l : List Char) :
    tokens (l.dropWhile isSpaceChar) = tokens l := by
  induction l with
  | nil => rfl
  | cons c rest ih =>
    cases h : isSpaceChar c with
    | true =>
      rw [List.dropWhile_cons]
      simp only [h, if_true]
      rw [ih, tokens_cons_space c rest h]
    | false =>
      rw [List.dropWhile_cons]
      simp [h]

theorem tokens_stripL (l : List Char) : tokens (stripL l) = tokens l := by
  unfold stripL
  rcases dropTrail_decomp (l.dropWhile isSpaceChar) with ⟨s, hs, hall⟩
  have h1 : tokens (l.dropWhile isSpaceChar) =
      tokens (dropTrail (l.dropWhile isSpaceChar)) := by
    conv_lhs => rw [hs]
    exact tokens_append_allspace _ s hall
  rw [← h1, tokens_dropWhile_space]

theorem tokens_joinWithSpace (ls : List (List Char)) :
    tokens (joinWithSpace ls) = (ls.map tokens).flatten := by
  induction ls with
  | nil => rfl
  | cons t ls ih =>
    cases ls with
    | nil => simp [joinWithSpace]
    | cons t2 ls2 =>
      rw [joinWithSpace_cons_cons, tokens_append_space, ih]
      simp

theorem strip_join_strip_eq (ts : List (List Char)) :
    stripL (collapseL false (joinWithSpace (ts.map stripL))) =
      stripL (collapseL false (joinWithSpace ts)) := by
  rw [strip_collapse_eq_joinTokens, strip_collapse_eq_joinTokens,
    tokens_joinWithSpace, tokens_joinWithSpace, List.map_map]
  have hcongr : (tokens ∘ stripL) = tokens := funext fun t => tokens_stripL t
  rw [hcongr]

theorem data_mk (l : List Char) : (String.mk l).data = l := rfl

/-- The spec's description of body assembly: the paragraph texts
concatenated with single spaces, every whitespace run collapsed to one
space, and leading/trailing whitespace trimmed.  (Stated from the spec's
words: unlike the code it does not strip each paragraph text first.) -/
def bodySpec (ts : List String) : String :=
  pyStrip (collapseWs (joinWithSpaceStr ts))

theorem code_body_eq_bodySpec (ts : List String) :
    pyStrip (collapseWs (joinWithSpaceStr (ts.map pyStrip))) = bodySpec ts := by
  unfold bodySpec pyStrip collapseWs joinWithSpaceStr
  simp only [data_mk, List.map_map]
  have h1 : (ts.map (String.data ∘ fun s => String.mk (stripL s.data))) =
      (ts.map String.data).map stripL := by
    rw [List.map_map]
    rfl
  rw [h1]
  exact congrArg String.mk (strip_join_strip_eq (ts.map String.data))

theorem body_empty_of_allspace (ts : List String)
    (h : ∀ t ∈ ts, t.data.all isSpaceChar = true) :
    pyStrip (collapseWs (joinWithSpaceStr (ts.map pyStrip))) = "" := by
  rw [code_body_eq_bodySpec]
  unfold bodySpec pyStrip collapseWs joinWithSpaceStr
  simp only [data_mk]
  have h2 : stripL (collapseL false (joinWithSpace (ts.map String.data))) = [] := by
    rw [strip_collapse_eq_joinTokens, tokens_joinWithSpace, List.map_map]
    have h3 : ts.map (tokens ∘ String.data) = ts.map (fun _ => []) := by
      apply List.map_congr_left
      intro t ht
      exact (tokens_nil_iff t.data).mpr (h t ht)
    rw [h3]
    have h4 : (ts.map fun _ => ([] : List (List Char))).flatten = [] := by
      induction ts with
      | nil => rfl
      | cons a as ih => simp [ih]
    rw [h4]
    rfl
  rw [h2]

/-! ## Claims about body assembly -/

/-- A page whose article holds one paragraph with text "a\n\n  b   c". -/
def wsExampleDoc : NodeList :=
  NodeList.cons (Node.element "article" none
    (NodeList.cons (Node.element "p" none
      (NodeList.cons (Node.text "a\n\n  b   c") NodeList.nil)) NodeList.nil))
    NodeList.nil

/-- C8: for every matched article container, the extracted body equals the
spec's description — the cleaned container's paragraph texts concatenated
with single spaces, whitespace runs collapsed to one space, and ends
trimmed; in particular the paragraph text "a\n\n  b   c" yields the body
"a b c". -/
theorem body_text_assembly (doc : NodeList) (article : Node)
    (hart : chosenArticle doc = some article) :
    (extract_article (FetchOutcome.page doc)).2 = bodySpec (paragraphTexts article) ∧
    extract_article (FetchOutcome.page wsExampleDoc) = ("", "a b c") := by
  refine ⟨?_, rfl⟩
  rw [chosenArticle_some_extract doc article hart]
  exact code_body_eq_bodySpec (paragraphTexts article)

theorem body_text_assembly_witness :
    (extract_article (FetchOutcome.page wsExampleDoc)).2 =
      bodySpec (paragraphTexts (Node.element "article" none
        (NodeList.cons (Node.element "p" none
          (NodeList.cons (Node.text "a\n\n  b   c") NodeList.nil)) NodeList.nil))) ∧
    extract_article (FetchOutcome.page wsExampleDoc) = ("", "a b c") :=
  body_text_assembly wsExampleDoc
    (Node.element "article" none
      (NodeList.cons (Node.element "p" none
        (NodeList.cons (Node.text "a\n\n  b   c") NodeList.nil)) NodeList.nil))
    rfl

/-- A page with a non-empty `h1` title and an article whose only
paragraph is whitespace-only. -/
def blankParagraphDoc : NodeList :=
  NodeList.cons (Node.element "h1" none
    (NodeList.cons (Node.text "A Title") NodeList.nil))
  (NodeList.cons (Node.element "article" none
    (NodeList.cons (Node.element "p" none
      (NodeList.cons (Node.text "   ") NodeList.nil)) NodeList.nil))
    NodeList.nil)

/-- The article container of `blankParagraphDoc`. -/
def blankParagraphArticle : Node :=
  Node.element "article" none
    (NodeList.cons (Node.element "p" none
      (NodeList.cons (Node.text "   ") NodeList.nil)) NodeList.nil)

/-- C10: when a selector matches a container but its cleaned paragraph
texts are absent or whitespace-only, the body is empty, so the endpoint
answers 400 with the fixed extraction-failure object — discarding any
non-empty title. -/
theorem matched_container_empty_body_400 (doc : NodeList) (article : Node)
    (u : String) (groq : GroqOutcome)
    (hart : chosenArticle doc = some article)
    (hws : ∀ t ∈ paragraphTexts article, t.data.all isSpaceChar = true)
    (hu : pyStartsWith u "http://" = true ∨ pyStartsWith u "https://" = true) :
    (extract_article (FetchOutcome.page doc)).2 = "" ∧
    analyze (some u) (FetchOutcome.page doc) groq =
      (400, Json.obj [("error", Json.str "Failed to extract article content")]) := by
  have hempty : (extract_article (FetchOutcome.page doc)).2 = "" := by
    rw [chosenArticle_some_extract doc article hart]
    exact body_empty_of_allspace _ hws
  refine ⟨hempty, ?_⟩
  cases hef : extract_article (FetchOutcome.page doc) with
  | mk title text =>
    have htext : text = "" := by rw [hef] at hempty; exact hempty
    rw [analyze_extracted u _ groq title text hu hef, if_pos htext]

theorem matched_container_empty_body_400_witness :
    (extract_article (FetchOutcome.page blankParagraphDoc)).2 = "" ∧
    analyze (some "http://e.com") (FetchOutcome.page blankParagraphDoc)
        (GroqOutcome.requestError "unused") =
      (400, Json.obj [("error", Json.str "Failed to extract article content")]) :=
  matched_container_empty_body_400 blankParagraphDoc blankParagraphArticle
    "http://e.com" (GroqOutcome.requestError "unused")
    rfl (by decide) (Or.inl (by rfl))
